import Mathlib

/-!
Shallow embedding of the link/feature-analysis core of the
`web_page_analyzer_go` repository (package `analyzer`:
`internal/analyzer/analyzer.go` and
`internal/analyzer/muliple_url_analyzer.go`), together with theorems
settling the specification claims about it.

Modelling conventions:
* `golang.org/x/net/html` parse trees become the inductive `HNode`
  (node type, tag/text data, ordered attribute list, ordered children);
  `FirstChild` is the head of `children`, sibling order is list order.
* Go `string` is Lean `String`; `strings.Contains`, `strings.HasPrefix`
  and `strings.ToLower` are embedded as executable functions below.
* `net/url.URL` values are embedded as `GoURL` (scheme, host, path); this
  covers the URLs exercised here (no user-info/query/fragment), for which
  `URL.String()` renders `scheme://hostpath`.  `url.Parse` composed with
  `baseURL.ResolveReference` is abstracted as a `resolve` parameter, and
  `isLinkAccessible` (a HEAD request) as an `accessible` oracle.
* Concurrency is embedded as explicit interleaving parameters: the
  per-link probe goroutines are sequentialised where the claims allow it,
  the batch analyzer's buffered probe channel becomes an explicit queue
  with a consumer-drain schedule, and the unsynchronised counter
  increment is given a small-step read/write interleaving semantics.
-/

/-- Node types of `golang.org/x/net/html.Node` that the analyzer
distinguishes (`html.ElementNode`, `html.TextNode`, `html.DoctypeNode`;
other kinds such as comments and the document root only matter through
being none of those three). -/
inductive NodeType where
  | document
  | element
  | text
  | doctype
  | comment
deriving DecidableEq

/-- One `html.Attribute`: a key/value pair. -/
structure HAttr where
  key : String
  val : String
deriving DecidableEq

/-- An `html.Node`: node type, `Data` (tag name or text), the ordered
attribute list `Attr`, and the ordered child list (first-child /
next-sibling chain). -/
inductive HNode : Type where
  | mk (type : NodeType) (data : String) (attr : List HAttr) (children : List HNode) : HNode

/-- Character-list core of Go `strings.Contains`: does `sub` occur as a
contiguous run inside `s`? -/
def charsContains : List Char → List Char → Bool
  | s, sub =>
    if sub.isPrefixOf s then true
    else
      match s with
      | [] => false
      | _ :: t => charsContains t sub

/-- Go `strings.Contains s sub`. -/
def strContains (s sub : String) : Bool :=
  charsContains s.data sub.data

/-- Go `strings.HasPrefix s pre`. -/
def strHasPrefix (s pre : String) : Bool :=
  pre.data.isPrefixOf s.data

/-- Go `strings.ToLower` (ASCII case folding suffices for the analyzer's
token comparisons). -/
def strToLower (s : String) : String :=
  ⟨s.data.map Char.toLower⟩

/-- The fields of `net/url.URL` the analyzer reads: `Scheme`, `Host` and
`Path`. -/
structure GoURL where
  scheme : String
  host : String
  path : String
deriving DecidableEq

/-- `URL.String()` for a `GoURL` (no user-info, query or fragment):
`scheme://hostpath`. -/
def urlString (u : GoURL) : String :=
  u.scheme ++ "://" ++ u.host ++ u.path

/-- `models.LinkStatus`: a count of unique links and how many of them
were found inaccessible. -/
structure LinkStatus where
  count : Nat
  inaccessible : Nat
deriving DecidableEq

/-- The six counters of `models.HeadingCount`. -/
structure HeadingCount where
  h1 : Nat
  h2 : Nat
  h3 : Nat
  h4 : Nat
  h5 : Nat
  h6 : Nat
deriving DecidableEq

/-- The fields of `models.AnalysisResult` populated by
`analyzeDocument` (URL, id and timestamp are not modelled). -/
structure AnalysisResult where
  htmlVersion : String
  title : String
  headings : HeadingCount
  internalLinks : LinkStatus
  externalLinks : LinkStatus
  hasLoginForm : Bool
deriving DecidableEq

/-- The attribute scan of `detectHTMLVersion` (lines 225-233 of
`analyzer.go`): the first attribute whose value contains `"HTML 4.01"`,
`"XHTML 1.0"` or `"XHTML 1.1"` (tested in that order per attribute)
yields that literal label. -/
def doctypeMatch : List HAttr → Option String
  | [] => none
  | a :: rest =>
    if strContains a.val "HTML 4.01" then some "HTML 4.01"
    else if strContains a.val "XHTML 1.0" then some "XHTML 1.0"
    else if strContains a.val "XHTML 1.1" then some "XHTML 1.1"
    else doctypeMatch rest

mutual
/-- `Analyzer.detectHTMLVersion` (`analyzer.go` lines 216-245); the
batch analyzer's `detectHTMLVersionMulti` is a verbatim copy, so this
embedding covers both.  A doctype node with an empty attribute list is
"HTML5"; a doctype attribute containing one of the three legacy labels
yields that label; otherwise the child loop runs and the fall-through
default is "HTML5 (assumed)". -/
def detectHTMLVersion : HNode → String
  | .mk ty _ attrs children =>
    if ty = .doctype then
      if attrs.isEmpty then "HTML5"
      else
        match doctypeMatch attrs with
        | some v => v
        | none => detectLoop children
    else detectLoop children

/-- The `for c := n.FirstChild; ...` loop of `detectHTMLVersion`: return
the first child whose recursive result is non-empty, else the default
"HTML5 (assumed)". -/
def detectLoop : List HNode → String
  | [] => "HTML5 (assumed)"
  | c :: cs =>
    let v := detectHTMLVersion c
    if v ≠ "" then v else detectLoop cs
end

/-- Walk down the chain of first children and return the attribute list
and children of the first doctype node encountered, if any.  This is the
locus `detectHTMLVersion` actually inspects. -/
def findSpineDoctype : HNode → Option (List HAttr × List HNode)
  | .mk ty _ attrs children =>
    if ty = .doctype then some (attrs, children)
    else
      match children with
      | [] => none
      | c :: _ => findSpineDoctype c

mutual
/-- Does the tree contain a doctype node anywhere? -/
def hasDoctype : HNode → Bool
  | .mk ty _ _ children =>
    ty = .doctype || hasDoctypeList children

/-- List version of `hasDoctype`. -/
def hasDoctypeList : List HNode → Bool
  | [] => false
  | c :: cs => hasDoctype c || hasDoctypeList cs
end

mutual
/-- Does the tree contain a doctype node whose attribute list is empty? -/
def hasEmptyDoctype : HNode → Bool
  | .mk ty _ attrs children =>
    (ty = .doctype && attrs.isEmpty) || hasEmptyDoctypeList children

/-- List version of `hasEmptyDoctype`. -/
def hasEmptyDoctypeList : List HNode → Bool
  | [] => false
  | c :: cs => hasEmptyDoctype c || hasEmptyDoctypeList cs
end

mutual
/-- Does every doctype node in the tree have a non-empty attribute list
none of whose values contains one of the three recognised labels? -/
def allDoctypesUnrecognized : HNode → Bool
  | .mk ty _ attrs children =>
    (if ty = .doctype then !attrs.isEmpty && (doctypeMatch attrs).isNone else true)
      && allDoctypesUnrecognizedList children

/-- List version of `allDoctypesUnrecognized`. -/
def allDoctypesUnrecognizedList : List HNode → Bool
  | [] => true
  | c :: cs => allDoctypesUnrecognized c && allDoctypesUnrecognizedList cs
end

/-- A parse tree in which a comment node precedes an attribute-free
doctype under the document root (the parse of
`<!--c--><!DOCTYPE html><html></html>`, children of the root document
node in order). -/
def commentThenDoctypeDoc : HNode :=
  .mk .document "" []
    [ .mk .comment "c" [] [],
      .mk .doctype "html" [] [],
      .mk .element "html" [] [] ]

/-- A document whose doctype carries an HTML 3.2 public identifier
(recognised by none of the three label tests). -/
def html32Doc : HNode :=
  .mk .document "" []
    [ .mk .doctype "html" [⟨"public", "-//W3C//DTD HTML 3.2 Final//EN"⟩] [],
      .mk .element "html" [] [] ]

/-- A document with no doctype node at all. -/
def noDoctypeDoc : HNode :=
  .mk .document "" []
    [ .mk .element "html" [] [ .mk .element "head" [] [], .mk .element "body" [] [] ] ]

/-- The parse of a plain HTML5 page: attribute-free doctype first. -/
def html5Doc : HNode :=
  .mk .document "" []
    [ .mk .doctype "html" [] [],
      .mk .element "html" [] [ .mk .element "head" [] [], .mk .element "body" [] [] ] ]

/-- The parse of a page with an HTML 4.01 strict doctype. -/
def html401Doc : HNode :=
  .mk .document "" []
    [ .mk .doctype "HTML" [⟨"public", "-//W3C//DTD HTML 4.01//EN"⟩,
                           ⟨"system", "http://www.w3.org/TR/html4/strict.dtd"⟩] [],
      .mk .element "html" [] [ .mk .element "head" [] [], .mk .element "body" [] [] ] ]

/-- Attribute list of a node. -/
def nodeAttrs : HNode → List HAttr
  | .mk _ _ attrs _ => attrs

/-- The form-attribute scan of `detectLoginForm` (`analyzer.go` lines
254-261): some `id`/`name`/`class` attribute value contains, after
lower-casing, "login", "signin", "log-in" or "sign-in". -/
def loginAttrIndicator (attrs : List HAttr) : Bool :=
  attrs.any fun a =>
    (a.key = "id" || a.key = "name" || a.key = "class") &&
      (strContains (strToLower a.val) "login" || strContains (strToLower a.val) "signin"
        || strContains (strToLower a.val) "log-in" || strContains (strToLower a.val) "sign-in")

/-- The attribute loop of `searchInputs` (`analyzer.go` lines 270-276):
`inputType` is the value of the last `type` attribute and `inputName` is
the lower-cased value of the last `name` or `id` attribute — a later
`id` overwrites an earlier `name` and vice versa. -/
def inputTypeName (attrs : List HAttr) : String × String :=
  attrs.foldl
    (fun acc a =>
      if a.key = "type" then (a.val, acc.2)
      else if a.key = "name" || a.key = "id" then (acc.1, strToLower a.val)
      else acc)
    ("", "")

/-- The username/email test of `searchInputs` (`analyzer.go` lines
284-290) applied to the extracted type and name. -/
def isUsernameLike (ty nm : String) : Bool :=
  (ty = "text" || ty = "email") &&
    (strContains nm "user" || strContains nm "email" || strContains nm "login"
      || strContains nm "name")

mutual
/-- The recursive `searchInputs` closure of `detectLoginForm`
(`analyzer.go` lines 264-297): scan the subtree for input elements and
report (password input seen, username-like input seen). -/
def searchInputs : HNode → Bool × Bool
  | .mk ty data attrs children =>
    let own :=
      if ty = .element && data = "input" then
        let tn := inputTypeName attrs
        ((tn.1 = "password" : Bool), isUsernameLike tn.1 tn.2)
      else (false, false)
    let rest := searchInputsList children
    (own.1 || rest.1, own.2 || rest.2)

/-- Child loop of `searchInputs`. -/
def searchInputsList : List HNode → Bool × Bool
  | [] => (false, false)
  | c :: cs =>
    let a := searchInputs c
    let b := searchInputsList cs
    (a.1 || b.1, a.2 || b.2)
end

/-- `Analyzer.detectLoginForm` (`analyzer.go` lines 248-303); the batch
analyzer's `detectLoginFormMulti` is a verbatim copy.  True iff a
login-indicating `id`/`name`/`class` attribute is present, or the
subtree holds both a password input and a username-like input. -/
def detectLoginForm (n : HNode) : Bool :=
  if loginAttrIndicator (nodeAttrs n) then true
  else
    let r := searchInputs n
    r.1 && r.2

mutual
/-- Attribute lists of all `input` elements of the subtree, in document
order. -/
def inputsOf : HNode → List (List HAttr)
  | .mk ty data attrs children =>
    (if ty = .element && data = "input" then [attrs] else []) ++ inputsOfList children

/-- List version of `inputsOf`. -/
def inputsOfList : List HNode → List (List HAttr)
  | [] => []
  | c :: cs => inputsOf c ++ inputsOfList cs
end

mutual
/-- All `form` element nodes of the subtree, in document order. -/
def formsOf : HNode → List HNode
  | .mk ty data attrs children =>
    (if ty = .element && data = "form" then [HNode.mk ty data attrs children] else [])
      ++ formsOfList children

/-- List version of `formsOf`. -/
def formsOfList : List HNode → List HNode
  | [] => []
  | c :: cs => formsOf c ++ formsOfList cs
end

/-- Modelled from the claim wording (spec section 4.2): an input is
username-like when its type is text or email and its `name` or `id`
attribute — either one — contains one of the four tokens.  This differs
from the source, which only tests the last `name`-or-`id` attribute. -/
def claimUsernameInput (attrs : List HAttr) : Bool :=
  ((inputTypeName attrs).1 = "text" || (inputTypeName attrs).1 = "email") &&
    attrs.any fun a =>
      (a.key = "name" || a.key = "id") &&
        (strContains (strToLower a.val) "user" || strContains (strToLower a.val) "email"
          || strContains (strToLower a.val) "login" || strContains (strToLower a.val) "name")

/-- Modelled from the claim wording (spec section 4.2): the login-form
rule as the specification states it, used only to exhibit where the
source deviates from it. -/
def detectLoginFormClaim (n : HNode) : Bool :=
  loginAttrIndicator (nodeAttrs n) ||
    (((inputsOf n).any fun al => (inputTypeName al).1 = "password") &&
      ((inputsOf n).any fun al => claimUsernameInput al))

/-- The dedup state of `analyzeDocument` (`analyzer.go` lines 104-105):
insertion-ordered key lists of the `internalLinks` / `externalLinks`
maps, plus the combined discovery-ordered list of new unique links (the
order in which probes are spawned or queued). -/
structure LinkState where
  internals : List String
  externals : List String
  discovered : List String
deriving DecidableEq

/-- Handling of one `href` attribute value (`analyzer.go` lines
140-181): skip empty and fragment-only hrefs, skip unresolvable ones,
classify by exact host equality against the base URL, and record the
resolved URL string at most once per bucket. -/
def processHref (base : GoURL) (resolve : String → Option GoURL)
    (ls : LinkState) (href : String) : LinkState :=
  if href = "" || strHasPrefix href "#" then ls
  else
    match resolve href with
    | none => ls
    | some r =>
      let key := urlString r
      if r.host = base.host then
        if key ∈ ls.internals then ls
        else { ls with internals := ls.internals ++ [key], discovered := ls.discovered ++ [key] }
      else
        if key ∈ ls.externals then ls
        else { ls with externals := ls.externals ++ [key], discovered := ls.discovered ++ [key] }

/-- The attribute loop of the anchor case (`analyzer.go` line 139):
process every `href` attribute of the element in order. -/
def hrefFold (base : GoURL) (resolve : String → Option GoURL)
    (ls : LinkState) (attrs : List HAttr) : LinkState :=
  attrs.foldl (fun acc a => if a.key = "href" then processHref base resolve acc a.val else acc) ls

/-- Mutable state threaded through the `processNode` walk. -/
structure WalkState where
  title : String
  headings : HeadingCount
  links : LinkState
  hasLoginForm : Bool
deriving DecidableEq

/-- Zero values of the fields the walk populates. -/
def initialWalkState : WalkState :=
  ⟨"", ⟨0, 0, 0, 0, 0, 0⟩, ⟨[], [], []⟩, false⟩

/-- Is the tag one of h1..h6? -/
def isHeadingTag (tag : String) : Bool :=
  tag = "h1" || tag = "h2" || tag = "h3" || tag = "h4" || tag = "h5" || tag = "h6"

/-- The heading switch (`analyzer.go` lines 121-136). -/
def bumpHeading (h : HeadingCount) (tag : String) : HeadingCount :=
  if tag = "h1" then { h with h1 := h.h1 + 1 }
  else if tag = "h2" then { h with h2 := h.h2 + 1 }
  else if tag = "h3" then { h with h3 := h.h3 + 1 }
  else if tag = "h4" then { h with h4 := h.h4 + 1 }
  else if tag = "h5" then { h with h5 := h.h5 + 1 }
  else if tag = "h6" then { h with h6 := h.h6 + 1 }
  else h

/-- The per-node `switch n.Data` dispatch of `processNode`
(`analyzer.go` lines 114-190, identically `muliple_url_analyzer.go`
lines 266-352): title assignment from a leading text child, heading
bump, href processing for anchors, and the login-form check that only
fires while the flag is still false. -/
def stepNode (base : GoURL) (resolve : String → Option GoURL)
    (st : WalkState) (n : HNode) : WalkState :=
  match n with
  | .mk ty data attrs children =>
    if ty = .element then
      if data = "title" then
        match children with
        | .mk cty ctext _ _ :: _ => if cty = .text then { st with title := ctext } else st
        | [] => st
      else if isHeadingTag data then
        { st with headings := bumpHeading st.headings data }
      else if data = "a" then
        { st with links := hrefFold base resolve st.links attrs }
      else if data = "form" then
        if st.hasLoginForm then st else { st with hasLoginForm := detectLoginForm n }
      else st
    else st

mutual
/-- The recursive `processNode` closure (`analyzer.go` lines 113-196):
dispatch on the node, then recurse over the children in order. -/
def processNode (base : GoURL) (resolve : String → Option GoURL)
    (st : WalkState) : HNode → WalkState
  | .mk ty data attrs children =>
    processList base resolve (stepNode base resolve st (.mk ty data attrs children)) children

/-- Child loop of `processNode`. -/
def processList (base : GoURL) (resolve : String → Option GoURL)
    (st : WalkState) : List HNode → WalkState
  | [] => st
  | c :: cs => processList base resolve (processNode base resolve st c) cs
end

/-- `Analyzer.analyzeDocument` (`analyzer.go` lines 99-213).  The probe
goroutines are sequentialised: every link inserted into a bucket map is
probed exactly once via the `accessible` oracle and, when inaccessible,
counted in the tally of the bucket that spawned it (the data race on the
two counters is modelled separately by `unsyncIncrementRun`). -/
def analyzeDocument (base : GoURL) (resolve : String → Option GoURL)
    (accessible : String → Bool) (doc : HNode) : AnalysisResult :=
  let st := processNode base resolve initialWalkState doc
  { htmlVersion := detectHTMLVersion doc
    title := st.title
    headings := st.headings
    internalLinks :=
      { count := st.links.internals.length
        inaccessible := (st.links.internals.filter fun l => !accessible l).length }
    externalLinks :=
      { count := st.links.externals.length
        inaccessible := (st.links.externals.filter fun l => !accessible l).length }
    hasLoginForm := st.hasLoginForm }

/-- State of the buffered probe channel of `analyzeDocumentMulti`
(`muliple_url_analyzer.go` line 243): pending sends, links handed to the
checker goroutines (each will be probed exactly once), and links dropped
by the full-queue `default` branch (lines 324-327 and 338-341), which
are never probed. -/
structure ProbeQueue where
  queue : List String
  probed : List String
  dropped : List String
deriving DecidableEq

/-- Buffer size of the probe channel (`make(chan string, 100)`). -/
def linkChannelCapacity : Nat := 100

/-- Consumers take `k` queued links (in FIFO order) for probing. -/
def drainProbes (k : Nat) (q : ProbeQueue) : ProbeQueue :=
  { queue := q.queue.drop k, probed := q.probed ++ q.queue.take k, dropped := q.dropped }

/-- The non-blocking send (`select` with `default`): enqueue when the
buffer has room, otherwise drop the link and mark it done unprobed. -/
def offerProbe (q : ProbeQueue) (link : String) : ProbeQueue :=
  if q.queue.length < linkChannelCapacity then { q with queue := q.queue ++ [link] }
  else { q with dropped := q.dropped ++ [link] }

/-- Producer loop under an interleaving `schedule`: before the i-th
offer the consumer goroutines drain `schedule[i]` links (capped by the
queue content).  Every schedule corresponds to a possible goroutine
interleaving, including the all-zero one in which the producer finishes
before any checker runs. -/
def enqueueAll (schedule : List Nat) (links : List String) (q : ProbeQueue) : ProbeQueue :=
  match links with
  | [] => q
  | l :: ls => enqueueAll schedule.tail ls (offerProbe (drainProbes (schedule.headD 0) q) l)

/-- Full lifetime of the probe channel: run the producer, then let the
checkers drain everything that was enqueued (`linkWg.Wait()` returns
only after every queued link was probed and every dropped link was
discarded). -/
def runProbeQueue (schedule : List Nat) (links : List String) : ProbeQueue :=
  let q := enqueueAll schedule links ⟨[], [], []⟩
  drainProbes q.queue.length q

/-- The checker-goroutine tally (`muliple_url_analyzer.go` lines
249-261), sequentialised: each probed link is classified internal by
`strings.HasPrefix(link, baseURL.String())` — not by host equality —
and, when inaccessible, bumps that side's counter. -/
def tallyStep (base : GoURL) (accessible : String → Bool) (p : Nat × Nat) (link : String) :
    Nat × Nat :=
  if !accessible link then
    if strHasPrefix link (urlString base) then (p.1 + 1, p.2) else (p.1, p.2 + 1)
  else p

/-- Tally accumulation over all probed links. -/
def multiTallies (base : GoURL) (accessible : String → Bool) (probed : List String) : Nat × Nat :=
  probed.foldl (tallyStep base accessible) (0, 0)

/-- `MultipleUrlAnalyzer.analyzeDocumentMulti`
(`muliple_url_analyzer.go` lines 232-376): same walk and bucket maps as
`analyzeDocument`, but probes flow through the bounded channel modelled
by `runProbeQueue` under the given interleaving `schedule`, and the
inaccessible tallies use the prefix classification of `multiTallies`. -/
def analyzeDocumentMulti (base : GoURL) (resolve : String → Option GoURL)
    (accessible : String → Bool) (schedule : List Nat) (doc : HNode) : AnalysisResult :=
  let st := processNode base resolve initialWalkState doc
  let q := runProbeQueue schedule st.links.discovered
  let t := multiTallies base accessible q.probed
  { htmlVersion := detectHTMLVersion doc
    title := st.title
    headings := st.headings
    internalLinks := { count := st.links.internals.length, inaccessible := t.1 }
    externalLinks := { count := st.links.externals.length, inaccessible := t.2 }
    hasLoginForm := st.hasLoginForm }

/-- The capped error lines of `AnalyzeURLs` (`muliple_url_analyzer.go`
lines 142-150): one "\n- message" line for each of the first
`min(5, len)` errors, then one "\n- ... and N more errors" line when
more than five occurred. -/
def errorDetailPieces (errs : List String) : List String :=
  (errs.take (min 5 errs.length)).map (fun e => "\n- " ++ e) ++
    (if errs.length > 5 then ["\n- ... and " ++ toString (errs.length - 5) ++ " more errors"]
     else [])

/-- The aggregate error of `AnalyzeURLs` (lines 139-152): `none` when no
per-URL error occurred, otherwise the combined message. -/
def errorSummary (errs : List String) : Option String :=
  if errs.length > 0 then
    some (toString errs.length ++ " errors occurred during analysis:"
      ++ String.join (errorDetailPieces errs))
  else none

/-- Worker dispatch of `AnalyzeURLs` (lines 84-90): a successful
analysis goes to the result channel, a failure to the error channel. -/
def batchStep (acc : List AnalysisResult × List String) (o : Except String AnalysisResult) :
    List AnalysisResult × List String :=
  match o with
  | .ok r => (acc.1 ++ [r], acc.2)
  | .error e => (acc.1, acc.2 ++ [e])

/-- `MultipleUrlAnalyzer.AnalyzeURLs` (`muliple_url_analyzer.go` lines
62-155) over the per-URL outcomes (each URL analysis either yields a
result or an error; `outcomes` lists them in completion order, which the
worker pool leaves unspecified): collect all successes, and combine all
failures into the capped summary. -/
def analyzeURLs (outcomes : List (Except String AnalysisResult)) :
    List AnalysisResult × Option String :=
  let acc := outcomes.foldl batchStep ([], [])
  (acc.1, errorSummary acc.2)

/-- The success payload of an outcome, if any. -/
def okOf : Except String AnalysisResult → Option AnalysisResult
  | .ok r => some r
  | .error _ => none

/-- The error message of an outcome, if any. -/
def errOf : Except String AnalysisResult → Option String
  | .ok _ => none
  | .error e => some e

/-- Status line of the primary page fetch. -/
structure FetchResponse where
  status : Nat
  statusText : String
  body : String

/-- Outcome of the primary page fetch (`a.client.Do`). -/
inductive FetchOutcome where
  | transportError (msg : String)
  | response (r : FetchResponse)

/-- `Analyzer.AnalyzeURL` (`analyzer.go` lines 39-96) with its external
effects abstracted: `parseURLError` is the result of `url.Parse`,
`fetch` the primary GET, `parseHTML` the `html.Parse` of the body
(request construction and body reading, which cannot fail in this
model, are elided).  A non-200 status yields the `HTTP error` and no
result (line 70-72). -/
def analyzeURL (base : GoURL) (resolve : String → Option GoURL) (accessible : String → Bool)
    (parseURLError : Option String) (fetch : FetchOutcome)
    (parseHTML : String → Option HNode) : Except String AnalysisResult :=
  match parseURLError with
  | some e => .error ("invalid URL: " ++ e)
  | none =>
    match fetch with
    | .transportError m => .error ("failed to fetch URL: " ++ m)
    | .response r =>
      if r.status ≠ 200 then
        .error ("HTTP error: " ++ toString r.status ++ " " ++ r.statusText)
      else
        match parseHTML r.body with
        | none => .error "failed to parse HTML"
        | some doc => .ok (analyzeDocument base resolve accessible doc)

/-- One goroutine's view of the unsynchronised `internalInaccessible++`
(`analyzer.go` line 164): the increment is a plain read followed by a
plain write of read-value-plus-one. -/
structure IncWorker where
  localVal : Option Nat
  finished : Bool
deriving DecidableEq

/-- One scheduler step: run worker `w`.  A worker that has not yet read
copies the shared counter into its local; a worker that has read but not
written stores its local plus one back; a finished worker idles. -/
def raceStep (st : Nat × List IncWorker) (w : Nat) : Nat × List IncWorker :=
  match st.2[w]? with
  | none => st
  | some wk =>
    match wk.localVal with
    | none => (st.1, st.2.set w ⟨some st.1, false⟩)
    | some v =>
      if wk.finished then st
      else (v + 1, st.2.set w ⟨some v, true⟩)

/-- Final shared-counter value after `workers` goroutines each perform
one unsynchronised increment under the interleaving `schedule` (a list
of worker indices, each step sequentially consistent). -/
def unsyncIncrementRun (workers : Nat) (schedule : List Nat) : Nat :=
  (schedule.foldl raceStep (0, List.replicate workers ⟨none, false⟩)).1

/-- Hrefs carried by an attribute list. -/
def hrefsOfAttrs (attrs : List HAttr) : List String :=
  attrs.filterMap fun a => if a.key = "href" then some a.val else none

/-- Hrefs the anchor case of the walk processes at this node itself. -/
def ownAnchorHrefs : HNode → List String
  | .mk ty data attrs _ => if ty = .element && data = "a" then hrefsOfAttrs attrs else []

mutual
/-- All hrefs of anchor elements of the subtree, in processing order. -/
def anchorHrefs : HNode → List String
  | .mk ty data attrs children =>
    ownAnchorHrefs (.mk ty data attrs children) ++ anchorHrefsList children

/-- List version of `anchorHrefs`. -/
def anchorHrefsList : List HNode → List String
  | [] => []
  | c :: cs => anchorHrefs c ++ anchorHrefsList cs
end

/-- Title text contributed by this node itself: the data of a leading
text child of a `title` element. -/
def ownTitleText : HNode → Option String
  | .mk ty data _ children =>
    if ty = .element && data = "title" then
      match children with
      | .mk cty ctext _ _ :: _ => if cty = .text then some ctext else none
      | [] => none
    else none

mutual
/-- Texts of all qualifying `title` elements of the subtree, in
processing order. -/
def titleTexts : HNode → List String
  | .mk ty data attrs children =>
    (ownTitleText (.mk ty data attrs children)).toList ++ titleTextsList children

/-- List version of `titleTexts`. -/
def titleTextsList : List HNode → List String
  | [] => []
  | c :: cs => titleTexts c ++ titleTextsList cs
end

/-- The skip/resolve guard applied to one href (`analyzer.go` lines
142-152). -/
def resolveHref (base : GoURL) (resolve : String → Option GoURL) (href : String) :
    Option GoURL :=
  if href = "" || strHasPrefix href "#" then none else resolve href

/-- Resolved URL strings of the hrefs classified internal (exact host
equality), with multiplicity, in processing order. -/
def resolvedInternal (base : GoURL) (resolve : String → Option GoURL)
    (hrefs : List String) : List String :=
  hrefs.filterMap fun h =>
    match resolveHref base resolve h with
    | none => none
    | some r => if r.host = base.host then some (urlString r) else none

/-- Resolved URL strings of the hrefs classified external. -/
def resolvedExternal (base : GoURL) (resolve : String → Option GoURL)
    (hrefs : List String) : List String :=
  hrefs.filterMap fun h =>
    match resolveHref base resolve h with
    | none => none
    | some r => if r.host = base.host then none else some (urlString r)

/-- Base URL for the C1 counterexample: note the non-root path. -/
def c1Base : GoURL := ⟨"http", "a.com", "/x"⟩

/-- Resolver for the C1 counterexample: the page's one href resolves to
a same-host sibling path. -/
def c1Resolve : String → Option GoURL := fun href =>
  if href = "/y" then some ⟨"http", "a.com", "/y"⟩ else none

/-- Page with a single same-host anchor for the C1 counterexample. -/
def c1Doc : HNode :=
  .mk .document "" []
    [ .mk .element "html" [] [ .mk .element "body" [] [ .mk .element "a" [⟨"href", "/y"⟩] [] ] ] ]

/-- Base URL for the queue-overflow scenario. -/
def c2Base : GoURL := ⟨"http", "h", "/"⟩

/-- Resolver for the queue-overflow scenario: every href resolves on the
base host. -/
def c2Resolve : String → Option GoURL := fun href => some ⟨"http", "h", href⟩

/-- Page with 101 distinct same-host anchors — one more than the probe
channel can buffer. -/
def c2Doc : HNode :=
  .mk .document "" []
    ((List.range 101).map fun i => .mk .element "a" [⟨"href", "/" ++ toString i⟩] [])

/-- Interleaving in which the producer finishes the walk before any
checker goroutine runs. -/
def zeroSchedule : List Nat := List.replicate 101 0

/-- Form for the C4 counterexample: a password input next to a text
input whose `name` contains "user" but whose later `id` does not. -/
def c4Form : HNode :=
  .mk .element "form" [⟨"action", "/auth"⟩]
    [ .mk .element "input" [⟨"type", "password"⟩, ⟨"name", "password"⟩] [],
      .mk .element "input" [⟨"type", "text"⟩, ⟨"name", "username"⟩, ⟨"id", "field1"⟩] [] ]

/-- Page wrapping `c4Form`. -/
def c4Doc : HNode :=
  .mk .document "" [] [ .mk .element "html" [] [ .mk .element "body" [] [ c4Form ] ] ]

/-- Base URL for the two-title counterexample. -/
def c9Base : GoURL := ⟨"https", "t.com", "/"⟩

/-- Resolver for the two-title counterexample (no links present). -/
def c9Resolve : String → Option GoURL := fun _ => none

/-- Page with two `title` elements: "A" first, "B" second. -/
def twoTitleDoc : HNode :=
  .mk .document "" []
    [ .mk .element "html" [] 
        [ .mk .element "head" [] 
            [ .mk .element "title" [] [ .mk .text "A" [] [] ],
              .mk .element "title" [] [ .mk .text "B" [] [] ] ] ] ]

/-- Base URL for the race scenario. -/
def c8Base : GoURL := ⟨"http", "h", "/"⟩

/-- Resolver for the race scenario. -/
def c8Resolve : String → Option GoURL := fun href => some ⟨"http", "h", href⟩

/-- Page with two unique internal links, both probed concurrently. -/
def c8Doc : HNode :=
  .mk .document "" []
    [ .mk .element "a" [⟨"href", "/p"⟩] [], .mk .element "a" [⟨"href", "/q"⟩] [] ]

/-- Base URL for the login-form counterexample page. -/
def c4Base : GoURL := ⟨"https", "c.com", "/"⟩

/-- Resolver for the login-form counterexample page (no links). -/
def c4Resolve : String → Option GoURL := fun _ => none

/-- Is this input attribute list password-like (`type` extracted as the
source does)? -/
def isPasswordInput (attrs : List HAttr) : Bool :=
  (inputTypeName attrs).1 = "password"

/-- Is this input attribute list username-like in the source's sense
(type and effective name extracted by `inputTypeName`)? -/
def isUsernameInput (attrs : List HAttr) : Bool :=
  isUsernameLike (inputTypeName attrs).1 (inputTypeName attrs).2

theorem doctypeMatch_ne_empty : ∀ l v, doctypeMatch l = some v → v ≠ "" := by
  intro l
  induction l with
  | nil => intro v hv; simp [doctypeMatch] at hv
  | cons a rest ih =>
    intro v hv
    simp only [doctypeMatch] at hv
    split at hv
    · cases hv; decide
    · split at hv
      · cases hv; decide
      · split at hv
        · cases hv; decide
        · exact ih v hv

theorem detectHTMLVersion_ne_empty (n : HNode) : detectHTMLVersion n ≠ "" := by
  induction n using detectHTMLVersion.induct
    (motive_2 := fun l => detectLoop l ≠ "") with
  | case1 d attrs children hempty =>
    simp [detectHTMLVersion, hempty]
  | case2 d attrs children hne v hv =>
    simp only [detectHTMLVersion, reduceIte, hne, hv]
    exact doctypeMatch_ne_empty attrs v hv
  | case3 d attrs children hne hmatch ih =>
    simpa only [detectHTMLVersion, reduceIte, hne, hmatch] using ih
  | case4 ty d attrs children hty ih =>
    simpa only [detectHTMLVersion, if_neg hty] using ih
  | case5 => decide
  | case6 c cs v hv _ =>
    simp only [detectLoop]
    split
    · assumption
    · exact absurd hv (by assumption)
  | case7 c cs v hv ihc ih =>
    simp only [detectLoop]
    split
    all_goals first | exact ihc | exact ih

theorem detectLoop_cons (c : HNode) (cs : List HNode) :
    detectLoop (c :: cs) = detectHTMLVersion c := by
  simp [detectLoop, detectHTMLVersion_ne_empty c]


theorem findSpineDoctype_doctype (d : String) (attrs : List HAttr) (children : List HNode) :
    findSpineDoctype (.mk .doctype d attrs children) = some (attrs, children) := by
  rw [findSpineDoctype.eq_def]; simp

theorem findSpineDoctype_leaf (ty : NodeType) (d : String) (attrs : List HAttr)
    (h : ty ≠ .doctype) : findSpineDoctype (.mk ty d attrs []) = none := by
  rw [findSpineDoctype.eq_def]; simp [h]

theorem findSpineDoctype_cons (ty : NodeType) (d : String) (attrs : List HAttr)
    (c : HNode) (tail : List HNode) (h : ty ≠ .doctype) :
    findSpineDoctype (.mk ty d attrs (c :: tail)) = findSpineDoctype c := by
  rw [findSpineDoctype.eq_def]; simp [h]

/-- Claim C3, corrected. The version detector only ever inspects the
chain of first children: a doctype reached along that chain decides the
version by the documented attribute rules (empty attribute list gives
"HTML5", a recognised substring gives that literal label, an
unrecognised childless doctype gives "HTML5 (assumed)"), and if no
doctype lies on that chain the result is "HTML5 (assumed)" regardless of
doctype nodes elsewhere in the tree. -/
theorem html_version_spine_rule (t : HNode) :
    (findSpineDoctype t = none → detectHTMLVersion t = "HTML5 (assumed)")
    ∧ (∀ cs, findSpineDoctype t = some ([], cs) → detectHTMLVersion t = "HTML5")
    ∧ (∀ attrs cs v, findSpineDoctype t = some (attrs, cs) → doctypeMatch attrs = some v →
        detectHTMLVersion t = v)
    ∧ (∀ attrs, findSpineDoctype t = some (attrs, []) → attrs ≠ [] → doctypeMatch attrs = none →
        detectHTMLVersion t = "HTML5 (assumed)") := by
  induction t using findSpineDoctype.induct with
  | case1 d attrs children =>
    have hspine : findSpineDoctype (.mk .doctype d attrs children) = some (attrs, children) :=
      findSpineDoctype_doctype d attrs children
    refine ⟨?_, ?_, ?_, ?_⟩
    · intro h
      rw [hspine] at h
      exact absurd h (Option.some_ne_none _)
    · intro cs h
      rw [hspine, Option.some_inj, Prod.mk.injEq] at h
      obtain ⟨h1, h2⟩ := h
      subst h1
      simp [detectHTMLVersion]
    · intro attrs' cs v h hm
      rw [hspine, Option.some_inj, Prod.mk.injEq] at h
      obtain ⟨h1, h2⟩ := h
      subst h1
      have hne : ¬attrs.isEmpty := by
        intro he
        rw [List.isEmpty_iff] at he
        rw [he] at hm
        simp [doctypeMatch] at hm
      simp [detectHTMLVersion, hne, hm]
    · intro attrs' h hne hm
      rw [hspine, Option.some_inj, Prod.mk.injEq] at h
      obtain ⟨h1, h2⟩ := h
      subst h1
      subst h2
      have hne2 : ¬attrs.isEmpty := by simpa [List.isEmpty_iff] using hne
      simp [detectHTMLVersion, hne2, hm, detectLoop]
  | case2 ty d attrs hty =>
    have hspine : findSpineDoctype (.mk ty d attrs []) = none :=
      findSpineDoctype_leaf ty d attrs hty
    refine ⟨?_, ?_, ?_, ?_⟩
    · intro _
      simp [detectHTMLVersion, hty, detectLoop]
    · intro cs h; rw [hspine] at h; exact absurd h.symm (Option.some_ne_none _)
    · intro attrs' cs v h hm; rw [hspine] at h; exact absurd h.symm (Option.some_ne_none _)
    · intro attrs' h hne hm; rw [hspine] at h; exact absurd h.symm (Option.some_ne_none _)
  | case3 ty d attrs hty c tail ih =>
    have hspine : findSpineDoctype (.mk ty d attrs (c :: tail)) = findSpineDoctype c :=
      findSpineDoctype_cons ty d attrs c tail hty
    have hdet : detectHTMLVersion (.mk ty d attrs (c :: tail)) = detectHTMLVersion c := by
      simp only [detectHTMLVersion, if_neg hty]
      exact detectLoop_cons c tail
    refine ⟨?_, ?_, ?_, ?_⟩
    · intro h; rw [hdet]; exact ih.1 (hspine ▸ h)
    · intro cs h; rw [hdet]; exact ih.2.1 cs (hspine ▸ h)
    · intro attrs' cs v h hm; rw [hdet]; exact ih.2.2.1 attrs' cs v (hspine ▸ h) hm
    · intro attrs' h hne hm; rw [hdet]; exact ih.2.2.2 attrs' (hspine ▸ h) hne hm

/-- Claim C3 witness: the corrected rule evaluated on four concrete
documents, one per clause. -/
theorem html_version_spine_rule_witness :
    detectHTMLVersion noDoctypeDoc = "HTML5 (assumed)"
    ∧ detectHTMLVersion html5Doc = "HTML5"
    ∧ detectHTMLVersion html401Doc = "HTML 4.01"
    ∧ detectHTMLVersion html32Doc = "HTML5 (assumed)" :=
  ⟨(html_version_spine_rule noDoctypeDoc).1
     (by simp [noDoctypeDoc, findSpineDoctype_cons, findSpineDoctype_leaf]),
   (html_version_spine_rule html5Doc).2.1 []
     (by simp [html5Doc, findSpineDoctype_cons, findSpineDoctype_doctype]),
   (html_version_spine_rule html401Doc).2.2.1
     [⟨"public", "-//W3C//DTD HTML 4.01//EN"⟩,
      ⟨"system", "http://www.w3.org/TR/html4/strict.dtd"⟩] [] "HTML 4.01"
     (by simp [html401Doc, findSpineDoctype_cons, findSpineDoctype_doctype]) (by decide),
   (html_version_spine_rule html32Doc).2.2.2
     [⟨"public", "-//W3C//DTD HTML 3.2 Final//EN"⟩]
     (by simp [html32Doc, findSpineDoctype_cons, findSpineDoctype_doctype])
     (by decide) (by decide)⟩

/-- Claim C3 counterexample: a document tree that does contain a doctype
node with an empty attribute list (so the claim demands "HTML5"), yet
because a comment node precedes the doctype the detector returns
"HTML5 (assumed)". -/
theorem html_version_hidden_doctype_counterexample :
    hasEmptyDoctype commentThenDoctypeDoc = true
    ∧ detectHTMLVersion commentThenDoctypeDoc = "HTML5 (assumed)"
    ∧ detectHTMLVersion commentThenDoctypeDoc ≠ "HTML5" :=
  ⟨by decide, by decide, by decide⟩

/-- Claim C10. If every doctype node of the tree has a non-empty
attribute list whose values contain none of "HTML 4.01", "XHTML 1.0",
"XHTML 1.1" (for example an HTML 3.2 public identifier), the detector
returns "HTML5 (assumed)" — exactly the value returned when the tree has
no doctype at all, so an unrecognised legacy doctype is indistinguishable
from a missing one. -/
theorem unrecognized_doctype_assumed (t : HNode) :
    (allDoctypesUnrecognized t = true → detectHTMLVersion t = "HTML5 (assumed)")
    ∧ (hasDoctype t = false → detectHTMLVersion t = "HTML5 (assumed)") := by
  induction t using detectHTMLVersion.induct
    (motive_2 := fun l =>
      (allDoctypesUnrecognizedList l = true → detectLoop l = "HTML5 (assumed)")
      ∧ (hasDoctypeList l = false → detectLoop l = "HTML5 (assumed)")) with
  | case1 d attrs children hempty =>
    constructor
    · intro h
      simp [allDoctypesUnrecognized, hempty] at h
    · intro h
      simp [hasDoctype] at h
  | case2 d attrs children hne v hv =>
    constructor
    · intro h
      simp [allDoctypesUnrecognized, hv] at h
    · intro h
      simp [hasDoctype] at h
  | case3 d attrs children hne hmatch ih =>
    constructor
    · intro h
      simp only [allDoctypesUnrecognized, reduceIte, Bool.and_eq_true] at h
      simp only [detectHTMLVersion, reduceIte, hne, hmatch]
      exact ih.1 h.2
    · intro h
      simp [hasDoctype] at h
  | case4 ty d attrs children hty ih =>
    constructor
    · intro h
      simp only [allDoctypesUnrecognized, if_neg hty, Bool.true_and] at h
      simpa only [detectHTMLVersion, if_neg hty] using ih.1 h
    · intro h
      simp only [hasDoctype, Bool.or_eq_false_iff] at h
      simpa only [detectHTMLVersion, if_neg hty] using ih.2 h.2
  | case5 =>
    exact ⟨fun _ => by decide, fun _ => by decide⟩
  | case6 c cs v hv ihc =>
    rw [detectLoop_cons c cs]
    constructor
    · intro h
      simp only [allDoctypesUnrecognizedList, Bool.and_eq_true] at h
      exact ihc.1 h.1
    · intro h
      simp only [hasDoctypeList, Bool.or_eq_false_iff] at h
      exact ihc.2 h.1
  | case7 c cs v hv ihc ih =>
    exact absurd (detectHTMLVersion_ne_empty c) (by simpa using hv)

/-- Claim C10 witness: an HTML 3.2 doctype and a doctype-free document
both evaluate to "HTML5 (assumed)". -/
theorem unrecognized_doctype_assumed_witness :
    detectHTMLVersion html32Doc = "HTML5 (assumed)"
    ∧ detectHTMLVersion noDoctypeDoc = "HTML5 (assumed)" :=
  ⟨(unrecognized_doctype_assumed html32Doc).1 (by decide),
   (unrecognized_doctype_assumed noDoctypeDoc).2 (by decide)⟩

set_option maxRecDepth 10000

/-- Claim C7. Whenever the primary fetch responds with a status other
than 200, `AnalyzeURL` returns the HTTP error naming that status, and
never an `AnalysisResult`. -/
theorem http_status_error (base : GoURL) (resolve : String → Option GoURL)
    (accessible : String → Bool) (parseHTML : String → Option HNode) (r : FetchResponse)
    (h : r.status ≠ 200) :
    analyzeURL base resolve accessible none (.response r) parseHTML
      = .error ("HTTP error: " ++ toString r.status ++ " " ++ r.statusText)
    ∧ ∀ a, analyzeURL base resolve accessible none (.response r) parseHTML ≠ .ok a := by
  constructor
  · simp [analyzeURL, h]
  · intro a
    simp [analyzeURL, h]

/-- Claim C7 witness: a 404 primary response yields the HTTP error and
no result. -/
theorem http_status_error_witness :
    analyzeURL ⟨"https", "example.com", "/"⟩ (fun _ => none) (fun _ => true) none
        (.response ⟨404, "404 Not Found", "Not Found"⟩) (fun _ => none)
      = .error ("HTTP error: " ++ toString 404 ++ " " ++ "404 Not Found") :=
  (http_status_error ⟨"https", "example.com", "/"⟩ (fun _ => none) (fun _ => true)
    (fun _ => none) ⟨404, "404 Not Found", "Not Found"⟩ (by decide)).1

/-- Claim C8, evaluated at the failing interleaving. The sequentialised
analyzer counts both inaccessible internal links of `c8Doc`, but the
unsynchronised increment the source performs from two concurrent probe
goroutines loses an update under the interleaving read-read-write-write
and yields 1; the fully sequential interleaving yields the correct 2. -/
theorem race_lost_update :
    (analyzeDocument c8Base c8Resolve (fun _ => false) c8Doc).internalLinks.inaccessible = 2
    ∧ unsyncIncrementRun 2 [0, 1, 0, 1] = 1
    ∧ unsyncIncrementRun 2 [0, 0, 1, 1] = 2 :=
  ⟨by decide, by decide, by decide⟩

/-- Claim C2, evaluated at the failing input: a page with 101 unique
links while the probe channel buffers 100.  Under the interleaving in
which the producer finishes before any checker goroutine runs, the
101st unique link is dropped by the `default` branch — 100 links are
probed, one is never probed — and with every link in fact inaccessible
the result still reports only 100 of 101 links inaccessible (the
dropped link is silently treated as accessible). -/
theorem queue_full_probe_loss :
    (processNode c2Base c2Resolve initialWalkState c2Doc).links.discovered.length = 101
    ∧ (runProbeQueue zeroSchedule
        (processNode c2Base c2Resolve initialWalkState c2Doc).links.discovered).probed.length
        = 100
    ∧ (runProbeQueue zeroSchedule
        (processNode c2Base c2Resolve initialWalkState c2Doc).links.discovered).dropped
        = ["http://h/100"]
    ∧ (analyzeDocumentMulti c2Base c2Resolve (fun _ => false) zeroSchedule c2Doc).internalLinks
        = ⟨101, 100⟩ :=
  ⟨by decide, by decide, by decide, by decide⟩

/-- Claim C9 counterexample: on a page whose first qualifying title
element is "A" and whose second is "B", the analyzer reports "B" — the
last occurrence wins, not the first. -/
theorem title_first_occurrence_counterexample :
    (titleTexts twoTitleDoc).head? = some "A"
    ∧ (analyzeDocument c9Base c9Resolve (fun _ => true) twoTitleDoc).title = "B"
    ∧ (analyzeDocument c9Base c9Resolve (fun _ => true) twoTitleDoc).title ≠ "A" :=
  ⟨by decide, by decide, by decide⟩

/-- Claim C4 counterexample: `c4Form` has a password input and a text
input whose `name` ("username") contains "user", so the claim demands
true; but since the input's later `id` attribute ("field1") overwrites
the name during the attribute scan, the source detector returns false,
and the page-level flag is false as well. -/
theorem login_form_name_id_counterexample :
    detectLoginFormClaim c4Form = true
    ∧ detectLoginForm c4Form = false
    ∧ (analyzeDocument c4Base c4Resolve (fun _ => true) c4Doc).hasLoginForm = false :=
  ⟨by decide, by decide, by decide⟩

/-- Claim C1 counterexample: base URL `http://a.com/x` and one anchor
resolving to `http://a.com/y`.  The host matches the base exactly, so
the link is bucketed internal (count 1) in both analyzers, and the
single-URL analyzer also tallies it internal when inaccessible; but the
batch analyzer's probe worker classifies by string prefix against
`http://a.com/x`, so the same inaccessible link lands in the external
tally. -/
theorem internal_tally_prefix_counterexample :
    (c1Resolve "/y").map GoURL.host = some c1Base.host
    ∧ (analyzeDocument c1Base c1Resolve (fun _ => false) c1Doc).internalLinks = ⟨1, 1⟩
    ∧ (analyzeDocument c1Base c1Resolve (fun _ => false) c1Doc).externalLinks = ⟨0, 0⟩
    ∧ (analyzeDocumentMulti c1Base c1Resolve (fun _ => false) [] c1Doc).internalLinks = ⟨1, 0⟩
    ∧ (analyzeDocumentMulti c1Base c1Resolve (fun _ => false) [] c1Doc).externalLinks = ⟨0, 1⟩ :=
  ⟨by decide, by decide, by decide, by decide, by decide⟩

theorem batch_foldl_spec (l : List (Except String AnalysisResult)) :
    ∀ res errs, l.foldl batchStep (res, errs)
      = (res ++ l.filterMap okOf, errs ++ l.filterMap errOf) := by
  induction l with
  | nil => intro res errs; simp
  | cons o t ih =>
    intro res errs
    cases o with
    | ok a =>
      simp only [List.foldl_cons, batchStep, List.filterMap_cons, okOf, errOf]
      rw [ih]
      simp
    | error e =>
      simp only [List.foldl_cons, batchStep, List.filterMap_cons, okOf, errOf]
      rw [ih]
      simp

theorem okOf_errOf_length (l : List (Except String AnalysisResult)) :
    (l.filterMap okOf).length + (l.filterMap errOf).length = l.length := by
  induction l with
  | nil => simp
  | cons o t ih =>
    cases o with
    | ok a => simp only [List.filterMap_cons, okOf, errOf, List.length_cons]; omega
    | error e => simp only [List.filterMap_cons, okOf, errOf, List.length_cons]; omega

theorem errorSummary_eq_none (errs : List String) :
    errorSummary errs = none ↔ errs = [] := by
  cases errs with
  | nil => simp [errorSummary]
  | cons e t => simp [errorSummary]

theorem errorDetailPieces_length (errs : List String) :
    (errorDetailPieces errs).length
      = min 5 errs.length + (if 5 < errs.length then 1 else 0) := by
  simp only [errorDetailPieces, List.length_append, List.length_map, List.length_take]
  split <;> simp <;> omega

theorem errorDetailPieces_take (errs : List String) :
    (errorDetailPieces errs).take (min 5 errs.length)
      = (errs.take (min 5 errs.length)).map (fun e => "\n- " ++ e) := by
  apply List.take_left'
  simp only [List.length_map, List.length_take]
  omega

/-- Claim C6. For a batch of K outcomes of which J are failures,
`AnalyzeURLs` delivers every successful result (K − J of them, no
failure aborts the others), reports an aggregate error exactly when J is
positive, and that error carries the first min(5, J) failure messages
verbatim plus, beyond five, a single "... and N more errors" summary
line. -/
theorem batch_success_and_error_counts (outcomes : List (Except String AnalysisResult)) :
    (analyzeURLs outcomes).1 = outcomes.filterMap okOf
    ∧ (analyzeURLs outcomes).1.length + (outcomes.filterMap errOf).length = outcomes.length
    ∧ (analyzeURLs outcomes).1.length = outcomes.length - (outcomes.filterMap errOf).length
    ∧ ((analyzeURLs outcomes).2 = none ↔ outcomes.filterMap errOf = [])
    ∧ (errorDetailPieces (outcomes.filterMap errOf)).length
        = min 5 (outcomes.filterMap errOf).length
          + (if 5 < (outcomes.filterMap errOf).length then 1 else 0)
    ∧ (errorDetailPieces (outcomes.filterMap errOf)).take
          (min 5 (outcomes.filterMap errOf).length)
        = ((outcomes.filterMap errOf).take (min 5 (outcomes.filterMap errOf).length)).map
            (fun e => "\n- " ++ e) := by
  have hres : (analyzeURLs outcomes).1 = outcomes.filterMap okOf := by
    simp [analyzeURLs, batch_foldl_spec outcomes [] []]
  have herr : (analyzeURLs outcomes).2 = errorSummary (outcomes.filterMap errOf) := by
    simp [analyzeURLs, batch_foldl_spec outcomes [] []]
  refine ⟨hres, ?_, ?_, ?_, errorDetailPieces_length _, errorDetailPieces_take _⟩
  · rw [hres]; exact okOf_errOf_length outcomes
  · rw [hres]
    have := okOf_errOf_length outcomes
    omega
  · rw [herr]; exact errorSummary_eq_none _

theorem hrefFold_spec (b : GoURL) (r : String → Option GoURL) (attrs : List HAttr) :
    ∀ ls, hrefFold b r ls attrs = (hrefsOfAttrs attrs).foldl (processHref b r) ls := by
  induction attrs with
  | nil => intro ls; rfl
  | cons a t ih =>
    intro ls
    simp only [hrefFold] at ih ⊢
    simp only [List.foldl_cons, hrefsOfAttrs, List.filterMap_cons]
    by_cases h : a.key = "href"
    · simp only [h, reduceIte]
      rw [ih (processHref b r ls a.val)]
      simp [hrefsOfAttrs]
    · simp only [h, reduceIte]
      rw [ih ls]
      simp [hrefsOfAttrs]

theorem foldl_const_getLastD (l : List String) :
    ∀ a, l.foldl (fun _ v => v) a = l.getLastD a := by
  induction l with
  | nil => intro a; rfl
  | cons x t ih =>
    intro a
    simp only [List.foldl_cons, List.getLastD_cons]
    exact ih x

theorem stepNode_spec (b : GoURL) (r : String → Option GoURL) (st : WalkState)
    (ty : NodeType) (data : String) (attrs : List HAttr) (children : List HNode) :
    (stepNode b r st (.mk ty data attrs children)).title
        = ((ownTitleText (.mk ty data attrs children)).toList).foldl (fun _ v => v) st.title
    ∧ (stepNode b r st (.mk ty data attrs children)).links
        = (ownAnchorHrefs (.mk ty data attrs children)).foldl (processHref b r) st.links
    ∧ (stepNode b r st (.mk ty data attrs children)).hasLoginForm
        = (st.hasLoginForm
            || (if ty = .element && data = "form"
                then [HNode.mk ty data attrs children] else []).any detectLoginForm) := by
  by_cases hty : ty = .element
  · subst hty
    by_cases ht : data = "title"
    · subst ht
      cases children with
      | nil => simp [stepNode, ownTitleText, ownAnchorHrefs]
      | cons c cs =>
        rcases c with ⟨cty, ctext, cattrs, cchildren⟩
        by_cases hcty : cty = .text
        · subst hcty
          simp [stepNode, ownTitleText, ownAnchorHrefs]
        · simp [stepNode, ownTitleText, ownAnchorHrefs, hcty]
    · by_cases hh : isHeadingTag data
      · have hna : data ≠ "a" := by
          intro h; subst h; simp [isHeadingTag] at hh
        have hnf : data ≠ "form" := by
          intro h; subst h; simp [isHeadingTag] at hh
        simp [stepNode, ownTitleText, ownAnchorHrefs, ht, hh, hna, hnf]
      · by_cases ha : data = "a"
        · subst ha
          simp [stepNode, ownTitleText, ownAnchorHrefs, ht, hh, hrefFold_spec]
        · by_cases hf : data = "form"
          · subst hf
            cases hb : st.hasLoginForm with
            | true => simp [stepNode, ownTitleText, ownAnchorHrefs, ht, hh, ha, hb]
            | false => simp [stepNode, ownTitleText, ownAnchorHrefs, ht, hh, ha, hb]
          · simp [stepNode, ownTitleText, ownAnchorHrefs, ht, hh, ha, hf]
  · simp [stepNode, ownTitleText, ownAnchorHrefs, hty]

theorem processNode_spec (b : GoURL) (r : String → Option GoURL) :
    ∀ (st : WalkState) (n : HNode),
      (processNode b r st n).title = (titleTexts n).foldl (fun _ v => v) st.title
      ∧ (processNode b r st n).links = (anchorHrefs n).foldl (processHref b r) st.links
      ∧ (processNode b r st n).hasLoginForm
          = (st.hasLoginForm || (formsOf n).any detectLoginForm) := by
  intro st n
  induction st, n using processNode.induct b r
    (motive_2 := fun st l =>
      (processList b r st l).title = (titleTextsList l).foldl (fun _ v => v) st.title
      ∧ (processList b r st l).links = (anchorHrefsList l).foldl (processHref b r) st.links
      ∧ (processList b r st l).hasLoginForm
          = (st.hasLoginForm || (formsOfList l).any detectLoginForm)) with
  | case1 st ty data attrs children ih =>
    obtain ⟨iht, ihl, ihf⟩ := ih
    obtain ⟨sht, shl, shf⟩ := stepNode_spec b r st ty data attrs children
    rw [processNode.eq_def]
    refine ⟨?_, ?_, ?_⟩
    · rw [iht, sht]
      simp only [titleTexts, List.foldl_append]
    · rw [ihl, shl]
      simp only [anchorHrefs, List.foldl_append]
    · rw [ihf, shf]
      simp only [formsOf, List.any_append, Bool.or_assoc]
  | case2 st =>
    rw [processList.eq_def]
    simp [titleTextsList, anchorHrefsList, formsOfList]
  | case3 st c cs ih1 ih2 =>
    obtain ⟨iht1, ihl1, ihf1⟩ := ih1
    obtain ⟨iht2, ihl2, ihf2⟩ := ih2
    rw [processList.eq_def]
    refine ⟨?_, ?_, ?_⟩
    · rw [iht2, iht1]
      simp only [titleTextsList, List.foldl_append]
    · rw [ihl2, ihl1]
      simp only [anchorHrefsList, List.foldl_append]
    · rw [ihf2, ihf1]
      simp [formsOfList, List.any_append, Bool.or_assoc]

/-- Claim C9, corrected. On every analyzed document the reported title
is the text of the LAST title element (in document order) whose first
child is a text node — each occurrence overwrites the previous one, so
the last wins, not the first; a document with no qualifying title keeps
the empty string.  This holds for both the single-URL and the batch
analyzer. -/
theorem title_last_occurrence (b : GoURL) (r : String → Option GoURL)
    (acc : String → Bool) (sched : List Nat) (doc : HNode) :
    (analyzeDocument b r acc doc).title = (titleTexts doc).getLastD ""
    ∧ (analyzeDocumentMulti b r acc sched doc).title = (titleTexts doc).getLastD "" := by
  have h := (processNode_spec b r initialWalkState doc).1
  rw [foldl_const_getLastD] at h
  exact ⟨h, h⟩

theorem searchInputs_spec (n : HNode) :
    searchInputs n
      = ((inputsOf n).any isPasswordInput, (inputsOf n).any isUsernameInput) := by
  induction n using searchInputs.induct
    (motive_2 := fun l =>
      searchInputsList l
        = ((inputsOfList l).any isPasswordInput, (inputsOfList l).any isUsernameInput)) with
  | case1 ty data attrs children ih =>
    rw [searchInputs.eq_def]
    simp only
    rw [ih]
    by_cases h : ty = NodeType.element ∧ data = "input"
    · obtain ⟨h1, h2⟩ := h
      subst h1; subst h2
      simp [inputsOf, isPasswordInput, isUsernameInput]
    · have hb : (decide (ty = NodeType.element) && decide (data = "input")) = false := by
        rcases Decidable.em (ty = NodeType.element) with h1 | h1
        · rcases Decidable.em (data = "input") with h2 | h2
          · exact absurd ⟨h1, h2⟩ h
          · simp [h2]
        · simp [h1]
      simp only [inputsOf, hb, Bool.false_and, if_neg]
      simp [hb]
  | case2 => simp [searchInputsList, inputsOfList]
  | case3 c cs ihc ihcs =>
    rw [searchInputsList.eq_def]
    simp only
    rw [ihc, ihcs]
    simp [inputsOfList, List.any_append]

/-- Claim C4, corrected. A form is declared a login form iff one of its
own id/name/class attribute values contains (case-insensitively)
"login", "signin", "log-in" or "sign-in", OR its subtree holds both a
password input and a username-like input — where username-like means the
input's type is text or email AND the value of the LAST name-or-id
attribute in its attribute list (a later id overwrites an earlier name)
contains "user", "email", "login" or "name" case-insensitively.  The
page-level HasLoginForm flag is true iff some form node of the page
satisfies this detector. -/
theorem login_form_rule (form : HNode) (b : GoURL) (r : String → Option GoURL)
    (acc : String → Bool) (doc : HNode) :
    detectLoginForm form
      = (loginAttrIndicator (nodeAttrs form)
          || ((inputsOf form).any isPasswordInput && (inputsOf form).any isUsernameInput))
    ∧ ((analyzeDocument b r acc doc).hasLoginForm = true
        ↔ ∃ f ∈ formsOf doc, detectLoginForm f = true) := by
  constructor
  · rw [detectLoginForm, searchInputs_spec form]
    by_cases h : loginAttrIndicator (nodeAttrs form) <;> simp [h]
  · have h := (processNode_spec b r initialWalkState doc).2.2
    have hres : (analyzeDocument b r acc doc).hasLoginForm
        = (processNode b r initialWalkState doc).hasLoginForm := rfl
    rw [hres, h]
    simp [initialWalkState, List.any_eq_true]

theorem processHref_eq_resolveHref (b : GoURL) (r : String → Option GoURL)
    (ls : LinkState) (h : String) :
    processHref b r ls h
      = match resolveHref b r h with
        | none => ls
        | some u =>
          if u.host = b.host then
            if urlString u ∈ ls.internals then ls
            else { ls with internals := ls.internals ++ [urlString u],
                           discovered := ls.discovered ++ [urlString u] }
          else
            if urlString u ∈ ls.externals then ls
            else { ls with externals := ls.externals ++ [urlString u],
                           discovered := ls.discovered ++ [urlString u] } := by
  simp only [processHref, resolveHref]
  split
  · rfl
  · cases r h <;> rfl

theorem processHref_fold_spec (b : GoURL) (r : String → Option GoURL) :
    ∀ (hrefs : List String) (ls : LinkState),
      (∀ u, u ∈ (hrefs.foldl (processHref b r) ls).internals
          ↔ u ∈ ls.internals ∨ u ∈ resolvedInternal b r hrefs)
      ∧ (∀ u, u ∈ (hrefs.foldl (processHref b r) ls).externals
          ↔ u ∈ ls.externals ∨ u ∈ resolvedExternal b r hrefs)
      ∧ (ls.internals.Nodup → (hrefs.foldl (processHref b r) ls).internals.Nodup)
      ∧ (ls.externals.Nodup → (hrefs.foldl (processHref b r) ls).externals.Nodup) := by
  intro hrefs
  induction hrefs with
  | nil =>
    intro ls
    simp [resolvedInternal, resolvedExternal]
  | cons h t ih =>
    intro ls
    simp only [List.foldl_cons, processHref_eq_resolveHref b r ls h,
      resolvedInternal, resolvedExternal, List.filterMap_cons]
    cases hr : resolveHref b r h with
    | none =>
      simpa only [resolvedInternal, resolvedExternal] using ih ls
    | some u =>
      by_cases hhost : u.host = b.host
      · simp only [hhost, reduceIte]
        by_cases hmem : urlString u ∈ ls.internals
        · simp only [hmem, reduceIte]
          obtain ⟨ih1, ih2, ih3, ih4⟩ := ih ls
          refine ⟨?_, ?_, ih3, ih4⟩
          · intro v
            rw [ih1 v]
            simp only [resolvedInternal, List.mem_cons]
            constructor
            · rintro (hv | hv)
              · exact Or.inl hv
              · exact Or.inr (Or.inr hv)
            · rintro (hv | hv | hv)
              · exact Or.inl hv
              · exact Or.inl (hv ▸ hmem)
              · exact Or.inr hv
          · intro v
            rw [ih2 v]
            simp only [resolvedExternal]
        · simp only [hmem, reduceIte]
          obtain ⟨ih1, ih2, ih3, ih4⟩ :=
            ih { ls with internals := ls.internals ++ [urlString u],
                         discovered := ls.discovered ++ [urlString u] }
          refine ⟨?_, ?_, ?_, ih4⟩
          · intro v
            rw [ih1 v]
            simp only [List.mem_append, List.mem_singleton, List.mem_cons, resolvedInternal]
            tauto
          · intro v
            rw [ih2 v]
            simp only [resolvedExternal]
          · intro hnd
            apply ih3
            simp only [List.nodup_append, List.nodup_cons, List.nodup_nil,
              List.disjoint_singleton]
            exact ⟨hnd, by simp, hmem⟩
      · simp only [hhost, reduceIte]
        by_cases hmem : urlString u ∈ ls.externals
        · simp only [hmem, reduceIte]
          obtain ⟨ih1, ih2, ih3, ih4⟩ := ih ls
          refine ⟨?_, ?_, ih3, ih4⟩
          · intro v
            rw [ih1 v]
            simp only [resolvedInternal]
          · intro v
            rw [ih2 v]
            simp only [resolvedExternal, List.mem_cons]
            constructor
            · rintro (hv | hv)
              · exact Or.inl hv
              · exact Or.inr (Or.inr hv)
            · rintro (hv | hv | hv)
              · exact Or.inl hv
              · exact Or.inl (hv ▸ hmem)
              · exact Or.inr hv
        · simp only [hmem, reduceIte]
          obtain ⟨ih1, ih2, ih3, ih4⟩ :=
            ih { ls with externals := ls.externals ++ [urlString u],
                         discovered := ls.discovered ++ [urlString u] }
          refine ⟨?_, ?_, ih3, ?_⟩
          · intro v
            rw [ih1 v]
            simp only [resolvedInternal]
          · intro v
            rw [ih2 v]
            simp only [List.mem_append, List.mem_singleton, List.mem_cons, resolvedExternal]
            tauto
          · intro hnd
            apply ih4
            simp only [List.nodup_append, List.nodup_cons, List.nodup_nil,
              List.disjoint_singleton]
            exact ⟨hnd, by simp, hmem⟩

theorem multiTallies_foldl (b : GoURL) (acc : String → Bool) :
    ∀ (probed : List String) (i e : Nat),
      probed.foldl (tallyStep b acc) (i, e)
        = (i + probed.countP (fun l => !acc l && strHasPrefix l (urlString b)),
           e + probed.countP (fun l => !acc l && !strHasPrefix l (urlString b))) := by
  intro probed
  induction probed with
  | nil => intro i e; simp
  | cons l t ih =>
    intro i e
    rw [List.foldl_cons]
    by_cases ha : acc l
    · have hf : tallyStep b acc (i, e) l = (i, e) := by simp [tallyStep, ha]
      rw [hf, ih i e]
      simp [List.countP_cons, ha]
    · by_cases hp : strHasPrefix l (urlString b)
      · have hf : tallyStep b acc (i, e) l = (i + 1, e) := by simp [tallyStep, ha, hp]
        rw [hf, ih (i + 1) e]
        simp only [List.countP_cons, Prod.mk.injEq]
        constructor
        · simp [ha, hp]; omega
        · simp [ha, hp]
      · have hf : tallyStep b acc (i, e) l = (i, e + 1) := by simp [tallyStep, ha, hp]
        rw [hf, ih i (e + 1)]
        simp only [List.countP_cons, Prod.mk.injEq]
        constructor
        · simp [ha, hp]
        · simp [ha, hp]; omega

theorem multiTallies_spec (b : GoURL) (acc : String → Bool) (probed : List String) :
    multiTallies b acc probed
      = (probed.countP (fun l => !acc l && strHasPrefix l (urlString b)),
         probed.countP (fun l => !acc l && !strHasPrefix l (urlString b))) := by
  have := multiTallies_foldl b acc probed 0 0
  simpa [multiTallies] using this

theorem enqueueAll_generous :
    ∀ (links : List String) (q : ProbeQueue),
      q.queue.length ≤ linkChannelCapacity →
      (enqueueAll (List.replicate links.length linkChannelCapacity) links q).probed
          ++ (enqueueAll (List.replicate links.length linkChannelCapacity) links q).queue
        = q.probed ++ q.queue ++ links
      ∧ (enqueueAll (List.replicate links.length linkChannelCapacity) links q).dropped
          = q.dropped
      ∧ (enqueueAll (List.replicate links.length linkChannelCapacity) links q).queue.length
          ≤ linkChannelCapacity := by
  intro links
  induction links with
  | nil =>
    intro q hq
    have h : enqueueAll (List.replicate ([] : List String).length linkChannelCapacity) [] q
        = q := by
      rw [enqueueAll.eq_def]
    rw [h]
    exact ⟨by simp, rfl, hq⟩
  | cons l ls ih =>
    intro q hq
    have hstep : enqueueAll (List.replicate (l :: ls).length linkChannelCapacity) (l :: ls) q
        = enqueueAll (List.replicate ls.length linkChannelCapacity) ls
            (offerProbe (drainProbes linkChannelCapacity q) l) := by
      rw [enqueueAll.eq_def]
      simp [List.replicate_succ]
    have hdrain : drainProbes linkChannelCapacity q
        = ⟨[], q.probed ++ q.queue, q.dropped⟩ := by
      simp only [drainProbes]
      rw [List.drop_eq_nil_of_le hq, List.take_of_length_le hq]
    have hoffer : offerProbe (drainProbes linkChannelCapacity q) l
        = ⟨[l], q.probed ++ q.queue, q.dropped⟩ := by
      rw [hdrain]
      simp [offerProbe, linkChannelCapacity]
    rw [hstep, hoffer]
    obtain ⟨h1, h2, h3⟩ := ih ⟨[l], q.probed ++ q.queue, q.dropped⟩
      (by simp [linkChannelCapacity])
    refine ⟨?_, h2, h3⟩
    rw [h1]
    simp

theorem runProbeQueue_generous (links : List String) :
    (runProbeQueue (List.replicate links.length linkChannelCapacity) links).probed = links
    ∧ (runProbeQueue (List.replicate links.length linkChannelCapacity) links).dropped = [] := by
  obtain ⟨h1, h2, _⟩ := enqueueAll_generous links ⟨[], [], []⟩ (by simp [linkChannelCapacity])
  simp only [runProbeQueue, drainProbes]
  constructor
  · rw [List.take_length]
    simpa using h1
  · simpa using h2

/-- Claim C1, corrected. Bucket classification is exact host equality in
both analyzers: a resolved link enters the internal bucket iff its host
exactly equals the base host (no subdomain normalization, no
www-stripping), and the external bucket otherwise.  In the single-URL
analyzer the same classification also decides the inaccessible tallies
(each unique bucketed link, when inaccessible, bumps its own bucket's
tally).  In the batch analyzer, however, the inaccessible tally instead
classifies each probed link by whether its URL string starts with the
base URL's string, which can disagree with the bucket classification
(see the counterexample). -/
theorem link_classification_rule (b : GoURL) (r : String → Option GoURL)
    (acc : String → Bool) (doc : HNode) :
    (∀ u, u ∈ (processNode b r initialWalkState doc).links.internals
        ↔ u ∈ resolvedInternal b r (anchorHrefs doc))
    ∧ (∀ u, u ∈ (processNode b r initialWalkState doc).links.externals
        ↔ u ∈ resolvedExternal b r (anchorHrefs doc))
    ∧ (analyzeDocument b r acc doc).internalLinks.inaccessible
        = (processNode b r initialWalkState doc).links.internals.countP (fun l => !acc l)
    ∧ (analyzeDocument b r acc doc).externalLinks.inaccessible
        = (processNode b r initialWalkState doc).links.externals.countP (fun l => !acc l)
    ∧ (analyzeDocumentMulti b r acc
          (List.replicate (processNode b r initialWalkState doc).links.discovered.length
            linkChannelCapacity) doc).internalLinks.inaccessible
        = (processNode b r initialWalkState doc).links.discovered.countP
            (fun l => !acc l && strHasPrefix l (urlString b))
    ∧ (analyzeDocumentMulti b r acc
          (List.replicate (processNode b r initialWalkState doc).links.discovered.length
            linkChannelCapacity) doc).externalLinks.inaccessible
        = (processNode b r initialWalkState doc).links.discovered.countP
            (fun l => !acc l && !strHasPrefix l (urlString b)) := by
  have hlinks := (processNode_spec b r initialWalkState doc).2.1
  have hfold := processHref_fold_spec b r (anchorHrefs doc) initialWalkState.links
  refine ⟨?_, ?_, ?_, ?_, ?_, ?_⟩
  · intro u
    rw [hlinks]
    exact (hfold.1 u).trans (by simp [initialWalkState])
  · intro u
    rw [hlinks]
    exact (hfold.2.1 u).trans (by simp [initialWalkState])
  · simp only [analyzeDocument]
    exact (List.countP_eq_length_filter _ _).symm
  · simp only [analyzeDocument]
    exact (List.countP_eq_length_filter _ _).symm
  · simp only [analyzeDocumentMulti]
    rw [(runProbeQueue_generous _).1, multiTallies_spec]
  · simp only [analyzeDocumentMulti]
    rw [(runProbeQueue_generous _).1, multiTallies_spec]

/-- Claim C5. Each link-count bucket holds the CARDINALITY of the set of
distinct resolved absolute URL strings of that classification: a raw
href occurring in two or more anchors (or any two hrefs resolving to the
same absolute URL) contributes exactly one to its bucket, in the
single-URL and batch analyzers alike. -/
theorem unique_link_counts (b : GoURL) (r : String → Option GoURL)
    (acc : String → Bool) (sched : List Nat) (doc : HNode) :
    (analyzeDocument b r acc doc).internalLinks.count
        = (resolvedInternal b r (anchorHrefs doc)).toFinset.card
    ∧ (analyzeDocument b r acc doc).externalLinks.count
        = (resolvedExternal b r (anchorHrefs doc)).toFinset.card
    ∧ (analyzeDocumentMulti b r acc sched doc).internalLinks.count
        = (resolvedInternal b r (anchorHrefs doc)).toFinset.card
    ∧ (analyzeDocumentMulti b r acc sched doc).externalLinks.count
        = (resolvedExternal b r (anchorHrefs doc)).toFinset.card := by
  have hlinks := (processNode_spec b r initialWalkState doc).2.1
  have hfold := processHref_fold_spec b r (anchorHrefs doc) initialWalkState.links
  have hndI : (processNode b r initialWalkState doc).links.internals.Nodup := by
    rw [hlinks]
    exact hfold.2.2.1 (by simp [initialWalkState])
  have hndE : (processNode b r initialWalkState doc).links.externals.Nodup := by
    rw [hlinks]
    exact hfold.2.2.2 (by simp [initialWalkState])
  have hcardI : (processNode b r initialWalkState doc).links.internals.length
      = (resolvedInternal b r (anchorHrefs doc)).toFinset.card := by
    rw [← List.toFinset_card_of_nodup hndI]
    congr 1
    apply Finset.ext
    intro u
    simp only [List.mem_toFinset]
    rw [hlinks]
    exact (hfold.1 u).trans (by simp [initialWalkState])
  have hcardE : (processNode b r initialWalkState doc).links.externals.length
      = (resolvedExternal b r (anchorHrefs doc)).toFinset.card := by
    rw [← List.toFinset_card_of_nodup hndE]
    congr 1
    apply Finset.ext
    intro u
    simp only [List.mem_toFinset]
    rw [hlinks]
    exact (hfold.2.1 u).trans (by simp [initialWalkState])
  exact ⟨hcardI, hcardE, hcardI, hcardE⟩
